import Mathlib

/-
Verification of the mock-rest-server record store and query filters.

The development shallowly embeds the Python modules
`mock_rest_server/data_filters.py` and `mock_rest_server/database.py`:

* JSON scalar values are modelled by `JValue`; records (Python dicts from
  field name to value) are association lists with Python dict semantics
  (`alistGet`, `alistSet`, `alistErase`, insertion order preserved).
* Python string operations used by the filters (`casefold`, `strip`,
  `lstrip`, `rstrip`, `startswith`, `endswith`, `in`, `str(...)`) are
  modelled over `String` / `List Char` (`caseFold`, `stripChar`,
  `lstripChar`, `rstripChar`, `List.isPrefixOf`, `List.isSuffixOf`,
  `isSubstring`, `pyStr`).  `casefold` is modelled as per-character
  lowercasing; no claim exercises the multi-character Unicode foldings.
* The `JsonDatabase` store is modelled by `DB` together with the
  operations `DB.create`, `DB.set`, `DB.update`, `DB.delete`, `DB.read`
  and `DB.available_resources`.  Python exceptions become an explicit
  `Except DbError` result; every mutating operation also returns the
  store state after the call (Python mutates in place, and a failed call
  can still have vivified a resource through `defaultdict`).
* `uuid.uuid4()` is modelled by `uuid4String` over a supply of random
  bytes, reproducing the version/variant bit stamping and the
  8-4-4-4-12 lowercase hex rendering of `str(uuid.UUID)`.
-/

/-- JSON scalar values as they occur in record fields.  Nested
objects/arrays of the Python model are not exercised by any claim and
are omitted. -/
inductive JValue where
  | jnull : JValue
  | jbool : Bool → JValue
  | jnum : Int → JValue
  | jstr : String → JValue
  deriving DecidableEq, Repr

/-- Python `str(...)` on a scalar value: `None`, `True`/`False`,
decimal rendering for ints, the string itself for strings. -/
def pyStr : JValue → String
  | JValue.jnull => "None"
  | JValue.jbool true => "True"
  | JValue.jbool false => "False"
  | JValue.jnum n => toString n
  | JValue.jstr s => s

/-- Python truthiness of a scalar value: `None`, `False`, `0` and the
empty string are falsy. -/
def pyTruthy : JValue → Bool
  | JValue.jnull => false
  | JValue.jbool b => b
  | JValue.jnum n => n != 0
  | JValue.jstr s => s != ""

/-- Python `str.casefold`, modelled as per-character lowercasing. -/
def caseFold (s : String) : String :=
  String.mk (s.toList.map Char.toLower)

/-- Python `str.lstrip(c)`: drop every leading occurrence of `c`. -/
def lstripChar (c : Char) (s : String) : String :=
  String.mk (s.toList.dropWhile (fun a => a == c))

/-- Python `str.rstrip(c)`: drop every trailing occurrence of `c`. -/
def rstripChar (c : Char) (s : String) : String :=
  String.mk ((s.toList.reverse.dropWhile (fun a => a == c)).reverse)

/-- Python `str.strip(c)`: drop every leading and trailing occurrence
of `c`. -/
def stripChar (c : Char) (s : String) : String :=
  String.mk
    ((((s.toList.dropWhile (fun a => a == c)).reverse).dropWhile
        (fun a => a == c)).reverse)

/-- Python `needle in haystack` on strings: substring containment. -/
def isSubstring (pat : List Char) : List Char → Bool
  | [] => pat.isEmpty
  | c :: rest => pat.isPrefixOf (c :: rest) || isSubstring pat rest

/-- Lookup in an association list (Python `d[k]` / `d.get(k)`); keys of
a Python dict are unique, so first match is the match. -/
def alistGet {κ α : Type} [DecidableEq κ] (k : κ) : List (κ × α) → Option α
  | [] => none
  | (k2, v) :: rest => if k2 = k then some v else alistGet k rest

/-- Python `k in d`. -/
def alistHas {κ α : Type} [DecidableEq κ] (k : κ) (m : List (κ × α)) : Bool :=
  (alistGet k m).isSome

/-- Python `d[k] = v`: replace in place if the key exists, else append
(insertion order preserved). -/
def alistSet {κ α : Type} [DecidableEq κ] (k : κ) (v : α) :
    List (κ × α) → List (κ × α)
  | [] => [(k, v)]
  | (k2, v2) :: rest =>
      if k2 = k then (k2, v) :: rest else (k2, v2) :: alistSet k v rest

/-- Python `del d[k]`: remove the (unique) entry with key `k`. -/
def alistErase {κ α : Type} [DecidableEq κ] (k : κ) :
    List (κ × α) → List (κ × α)
  | [] => []
  | (k2, v2) :: rest =>
      if k2 = k then rest else (k2, v2) :: alistErase k rest

/-- A record: a Python dict from field name to JSON value. -/
abbrev Record := List (String × JValue)

/-- data_filters.py, `_record_param_equals_value`: the field is present
and its stringified value equals the search string, casefolded. -/
def record_param_equals_value (param search : String) (rec : Record) : Bool :=
  match alistGet param rec with
  | none => false
  | some v => caseFold search == caseFold (pyStr v)

/-- data_filters.py, `_record_param_contains_value`: the field is
present and its stringified value contains the search string,
casefolded. -/
def record_param_contains_value (param search : String) (rec : Record) : Bool :=
  match alistGet param rec with
  | none => false
  | some v =>
      isSubstring (caseFold search).toList (caseFold (pyStr v)).toList

/-- data_filters.py, `_record_param_startswith_value`: the field is
present, truthy, and its stringified value starts with the search
string, casefolded. -/
def record_param_startswith_value (param search : String) (rec : Record) :
    Bool :=
  match alistGet param rec with
  | none => false
  | some v =>
      pyTruthy v &&
        (caseFold search).toList.isPrefixOf (caseFold (pyStr v)).toList

/-- data_filters.py, `_record_param_endswith_value`: the field is
present, truthy, and its stringified value ends with the search string,
casefolded. -/
def record_param_endswith_value (param search : String) (rec : Record) :
    Bool :=
  match alistGet param rec with
  | none => false
  | some v =>
      pyTruthy v &&
        (caseFold search).toList.isSuffixOf (caseFold (pyStr v)).toList

/-- data_filters.py, `build_query_filter`: dispatch on the position of
the wildcard character in the query value.  The server calls this with
`WILD_CARD = "*"`, a single character, so the wildcard is modelled as a
`Char`. -/
def build_query_filter (param value : String) (wild_card : Char)
    (rec : Record) : Bool :=
  if [wild_card].isPrefixOf value.toList then
    if [wild_card].isSuffixOf value.toList then
      record_param_contains_value param (stripChar wild_card value) rec
    else
      record_param_endswith_value param (lstripChar wild_card value) rec
  else if [wild_card].isSuffixOf value.toList then
    record_param_startswith_value param (rstripChar wild_card value) rec
  else
    record_param_equals_value param value rec

/-- The query value begins with the wildcard. -/
def startsStar (value : String) : Prop :=
  value.toList.head? = some '*'

/-- The query value ends with the wildcard. -/
def endsStar (value : String) : Prop :=
  value.toList.getLast? = some '*'

instance (value : String) : Decidable (startsStar value) := by
  unfold startsStar; infer_instance

instance (value : String) : Decidable (endsStar value) := by
  unfold endsStar; infer_instance

/-- Specification-side matching relation, following the spec's table:
the field must be present; its stringified, casefolded value is compared
with the casefolded pattern core (the pattern with the wildcard
character stripped from the relevant end(s)); the mode is selected by
wildcard position; prefix and suffix modes additionally require the
field value to be truthy. -/
def SpecMatch (param value : String) (rec : Record) : Prop :=
  ∃ v, alistGet param rec = some v ∧
    ((startsStar value ∧ endsStar value ∧
        (caseFold (stripChar '*' value)).toList <:+:
          (caseFold (pyStr v)).toList) ∨
      (startsStar value ∧ ¬endsStar value ∧ pyTruthy v = true ∧
        (caseFold (lstripChar '*' value)).toList <:+
          (caseFold (pyStr v)).toList) ∨
      (¬startsStar value ∧ endsStar value ∧ pyTruthy v = true ∧
        (caseFold (rstripChar '*' value)).toList <+:
          (caseFold (pyStr v)).toList) ∨
      (¬startsStar value ∧ ¬endsStar value ∧
        caseFold value = caseFold (pyStr v)))

lemma singleton_isPrefixOf_iff (c : Char) (l : List Char) :
    [c].isPrefixOf l = true ↔ l.head? = some c := by
  cases l with
  | nil => simp [List.isPrefixOf]
  | cons a t =>
      show (c == a && List.isPrefixOf [] t) = true ↔ some a = some c
      rw [show List.isPrefixOf [] t = true by cases t <;> rfl, Bool.and_true,
        beq_iff_eq, Option.some.injEq]
      exact eq_comm

lemma singleton_isSuffixOf_iff (c : Char) (l : List Char) :
    [c].isSuffixOf l = true ↔ l.getLast? = some c := by
  show ([c].reverse.isPrefixOf l.reverse) = true ↔ _
  rw [show ([c] : List Char).reverse = [c] from rfl,
    singleton_isPrefixOf_iff, List.head?_reverse]

lemma isSubstring_iff_infix (pat l : List Char) :
    isSubstring pat l = true ↔ pat <:+: l := by
  induction l with
  | nil =>
      simp only [isSubstring, List.isEmpty_iff, List.infix_nil]
  | cons c rest ih =>
      rw [isSubstring, Bool.or_eq_true, ih, List.infix_cons_iff,
        List.isPrefixOf_iff_prefix]

/-- C1: for every record, field name and pattern string, the predicate
built by `build_query_filter` (with the server's wildcard `*`) returns
true iff the field is present in the record and the string
representation of its value matches the pattern case-insensitively in
the mode selected by wildcard position — substring containment for
a pattern wrapped in wildcards, suffix match for a leading wildcard,
prefix match for a trailing wildcard, exact equality otherwise; an
absent field never matches, and prefix/suffix modes additionally
require the field value to be truthy. -/
theorem c1_build_query_filter_matches_spec (param value : String)
    (rec : Record) :
    build_query_filter param value '*' rec = true ↔
      SpecMatch param value rec := by
  by_cases hs : startsStar value
  · have hs2 : ([ '*' ].isPrefixOf value.toList) = true :=
      (singleton_isPrefixOf_iff _ _).mpr hs
    by_cases he : endsStar value
    · have he2 : ([ '*' ].isSuffixOf value.toList) = true :=
        (singleton_isSuffixOf_iff _ _).mpr he
      simp only [build_query_filter, hs2, he2, if_true]
      cases hv : alistGet param rec with
      | none => simp [record_param_contains_value, hv, SpecMatch]
      | some v =>
          simp [record_param_contains_value, hv, SpecMatch, hs, he,
            isSubstring_iff_infix]
    · have he2 : ([ '*' ].isSuffixOf value.toList) = false := by
        rw [Bool.eq_false_iff]
        intro hx
        exact he ((singleton_isSuffixOf_iff _ _).mp hx)
      simp only [build_query_filter, hs2, he2, if_true, Bool.false_eq_true,
        if_false]
      cases hv : alistGet param rec with
      | none => simp [record_param_endswith_value, hv, SpecMatch]
      | some v =>
          simp [record_param_endswith_value, hv, SpecMatch, hs, he]
  · have hs2 : ([ '*' ].isPrefixOf value.toList) = false := by
      rw [Bool.eq_false_iff]
      intro hx
      exact hs ((singleton_isPrefixOf_iff _ _).mp hx)
    by_cases he : endsStar value
    · have he2 : ([ '*' ].isSuffixOf value.toList) = true :=
        (singleton_isSuffixOf_iff _ _).mpr he
      simp only [build_query_filter, hs2, he2, if_true, Bool.false_eq_true,
        if_false]
      cases hv : alistGet param rec with
      | none => simp [record_param_startswith_value, hv, SpecMatch]
      | some v =>
          simp [record_param_startswith_value, hv, SpecMatch, hs, he]
    · have he2 : ([ '*' ].isSuffixOf value.toList) = false := by
        rw [Bool.eq_false_iff]
        intro hx
        exact he ((singleton_isSuffixOf_iff _ _).mp hx)
      simp only [build_query_filter, hs2, he2, Bool.false_eq_true, if_false]
      cases hv : alistGet param rec with
      | none => simp [record_param_equals_value, hv, SpecMatch]
      | some v =>
          simp [record_param_equals_value, hv, SpecMatch, hs, he]

/-- Error taxonomy of database.py (exception classes raised by the
store operations; `NotInitialized` is never raised by the modelled
code). -/
inductive DbError where
  | duplicateValue : DbError
  | notFound : DbError
  | missingId : DbError
  deriving DecidableEq, Repr

/-- One resource: Python dict from record id to record.  Ids are
Python values read from id arguments or record bodies, hence `JValue`
(a JSON null id loaded from disk is Python `None`, modelled `jnull`). -/
abbrev ResMap := List (JValue × Record)

/-- The resource map: Python `defaultdict(dict)` from resource name to
resource.  Vivification by bare lookup is modelled explicitly at each
access site that performs it. -/
abbrev Resources := List (String × ResMap)

/-- database.py, `JsonDatabase` state relevant to the claims: the
records map, the `dirty` flag and the `data_changed` signal.  The
persistence-scheduler fields (`last_save`, `persist_stop`,
`persist_period_limit`) belong to the background thread loop, which is
not modelled. -/
structure DB where
  records : Resources
  dirty : Bool
  dataChanged : Bool
  deriving DecidableEq, Repr

/-- A freshly constructed store with no backing file. -/
def emptyDB : DB :=
  { records := [], dirty := false, dataChanged := false }

/-- The id-resolution prologue shared by `create`, `set` and `update`:
`if record_id: record[id_field] = record_id / elif id_field in record:
record_id = record[id_field]`.  Returns the (possibly stamped) record
and the Python value of `record_id` after the prologue; an unresolved
id is Python `None`, i.e. `jnull`.  Note that a falsy explicit argument
(`""` or `None`) does not stamp and falls through to the record body. -/
def resolveRid (idField : String) (record : Record) (record_id : Option String) :
    Record × JValue :=
  match record_id with
  | some s =>
      if s = "" then
        match alistGet idField record with
        | some v => (record, v)
        | none => (record, JValue.jstr s)
      else (alistSet idField (JValue.jstr s) record, JValue.jstr s)
  | none =>
      match alistGet idField record with
      | some v => (record, v)
      | none => (record, JValue.jnull)

/-- database.py, `JsonDatabase.read`: `NotFound` if the resource is
absent (no vivification) or the id is absent, else a copy of the
record. -/
def DB.read (db : DB) (resource record_id : String) : Except DbError Record :=
  match alistGet resource db.records with
  | none => Except.error DbError.notFound
  | some m =>
      match alistGet (JValue.jstr record_id) m with
      | none => Except.error DbError.notFound
      | some r => Except.ok r

/-- The id resolution of `create` including the generation fallback:
`if not record_id: record_id = str(uuid.uuid4()); record[id_field] =
record_id`. -/
def resolveCreateId (idField fresh : String) (record : Record)
    (record_id : Option String) : Record × JValue :=
  let pr := resolveRid idField record record_id
  if pyTruthy pr.2 then pr
  else (alistSet idField (JValue.jstr fresh) pr.1, JValue.jstr fresh)

/-- database.py, `JsonDatabase.create`: resolve the id, generating a
fresh uuid when the resolved id is falsy; raise `DuplicateValue` when
the resolved id already exists in the resource (checked with a guard on
resource existence, so no vivification on the failure path); otherwise
insert, mark dirty and signal the scheduler.  The random
`str(uuid.uuid4())` is supplied as the `fresh` argument. -/
def DB.create (db : DB) (idField fresh resource : String) (record : Record)
    (record_id : Option String) : Except DbError Record × DB :=
  let pr2 := resolveCreateId idField fresh record record_id
  let dup :=
    match alistGet resource db.records with
    | some m => alistHas pr2.2 m
    | none => false
  if dup then (Except.error DbError.duplicateValue, db)
  else
    (Except.ok pr2.1,
      { records :=
          alistSet resource (alistSet pr2.2 pr2.1
            ((alistGet resource db.records).getD [])) db.records,
        dirty := true, dataChanged := true })

/-- database.py, `JsonDatabase.set`: resolve the id with no generation
fallback; raise `MissingId` when the resolved id is falsy (before any
access to the records map); otherwise replace-or-insert unconditionally,
mark dirty and signal the scheduler. -/
def DB.set (db : DB) (idField resource : String) (record : Record)
    (record_id : Option String) : Except DbError Record × DB :=
  let pr := resolveRid idField record record_id
  if pyTruthy pr.2 then
    (Except.ok pr.1,
      { records :=
          alistSet resource (alistSet pr.2 pr.1
            ((alistGet resource db.records).getD [])) db.records,
        dirty := true, dataChanged := true })
  else (Except.error DbError.missingId, db)

/-- Python `dict.update(other)`: assign every key of `other` into the
dict, in order. -/
def dictUpdate {κ α : Type} [DecidableEq κ] (d other : List (κ × α)) :
    List (κ × α) :=
  other.foldl (fun acc p => alistSet p.1 p.2 acc) d

/-- database.py, `JsonDatabase.update`: resolve the id (no generation),
then check `record_id not in self.records[resource]` — the bare
`defaultdict` access vivifies an absent resource as an empty map even
when the check then fails with `NotFound`.  On success, merge the
supplied record into the stored one in place, mark dirty, signal the
scheduler and return the merged record. -/
def DB.update (db : DB) (idField resource : String) (record : Record)
    (record_id : Option String) : Except DbError Record × DB :=
  let pr := resolveRid idField record record_id
  let m := (alistGet resource db.records).getD []
  let records1 := alistSet resource m db.records
  match alistGet pr.2 m with
  | none => (Except.error DbError.notFound, { db with records := records1 })
  | some stored =>
      (Except.ok (dictUpdate stored pr.1),
        { records := alistSet resource (alistSet pr.2 (dictUpdate stored pr.1) m)
            records1,
          dirty := true, dataChanged := true })

/-- database.py, `JsonDatabase.delete`: `NotFound` if the resource or
the id is absent (no vivification), else remove the record, mark dirty
and signal the scheduler. -/
def DB.delete (db : DB) (resource record_id : String) :
    Except DbError Unit × DB :=
  match alistGet resource db.records with
  | none => (Except.error DbError.notFound, db)
  | some m =>
      match alistGet (JValue.jstr record_id) m with
      | none => (Except.error DbError.notFound, db)
      | some _ =>
          (Except.ok (),
            { records :=
                alistSet resource (alistErase (JValue.jstr record_id) m)
                  db.records,
              dirty := true, dataChanged := true })

/-- database.py, `JsonDatabase.available_resources`:
`sorted(set(self.records.keys()))` — every key currently in the map,
deduplicated and sorted. -/
def DB.available_resources (db : DB) : List String :=
  List.insertionSort (fun a b => a ≤ b) (db.records.map Prod.fst).dedup

/-- database.py, `JsonDatabase._persist`: the JSON object written to
disk, mapping each resource name to the list of its records
(`list(resource_records.values())`). -/
def persistSnapshot (db : DB) : List (String × List Record) :=
  db.records.map (fun p => (p.1, p.2.map Prod.snd))

/-- The key/record pairs built by the load comprehension
`{record[id_field]: record for record in resource_records}`; `none`
models the `KeyError` raised when a record lacks the id field. -/
def recordKeyPairs (idField : String) : List Record → Option (List (JValue × Record))
  | [] => some []
  | r :: rest =>
      match alistGet idField r with
      | none => none
      | some v =>
          match recordKeyPairs idField rest with
          | none => none
          | some prs => some ((v, r) :: prs)

/-- Building a Python dict from a pair sequence: insert in order, later
duplicates overwriting earlier ones. -/
def dictOfPairs {κ α : Type} [DecidableEq κ] (prs : List (κ × α)) :
    List (κ × α) :=
  prs.foldl (fun acc p => alistSet p.1 p.2 acc) []

/-- The resource map built by the load comprehension of
`JsonDatabase.__init__` from the parsed snapshot; `none` models any
raised exception. -/
def loadSnapshot (idField : String) :
    List (String × List Record) → Option Resources
  | [] => some []
  | (res, recs) :: rest =>
      match recordKeyPairs idField recs with
      | none => none
      | some prs =>
          match loadSnapshot idField rest with
          | none => none
          | some rs => some ((res, dictOfPairs prs) :: rs)

/-- database.py, `JsonDatabase.__init__` on an existing readable file:
the parsed snapshot is transformed into the id-keyed records map; any
exception leaves the store empty with a warning. -/
def DB.load (idField : String) (snap : List (String × List Record)) : DB :=
  match loadSnapshot idField snap with
  | none => emptyDB
  | some rs => { records := rs, dirty := false, dataChanged := false }

/-- The lowercase hex digit of a nibble, as Python `'%x' % n` renders
it: code points 48-57 for 0-9 and 97-102 for 10-15. -/
def hexChar (n : Nat) : Char :=
  if n < 10 then Char.ofNat (48 + n) else Char.ofNat (87 + n)

/-- Two lowercase hex digits of a byte. -/
def byteHex (b : Nat) : List Char :=
  [hexChar (b / 16 % 16), hexChar (b % 16)]

/-- The i-th byte of the random supply. -/
def byteAt (bs : List Nat) (i : Nat) : Nat :=
  bs.getD i 0 % 256

/-- Model of `str(uuid.uuid4())` over 16 random bytes: byte 6 carries
the version nibble 4, byte 8 the RFC 4122 variant bits, and the result
is rendered as 8-4-4-4-12 lowercase hex groups separated by hyphens. -/
def uuid4String (bs : List Nat) : String :=
  String.mk
    (byteHex (byteAt bs 0) ++ byteHex (byteAt bs 1) ++ byteHex (byteAt bs 2) ++
      byteHex (byteAt bs 3) ++ [ '-' ] ++
      byteHex (byteAt bs 4) ++ byteHex (byteAt bs 5) ++ [ '-' ] ++
      byteHex (byteAt bs 6 % 16 + 64) ++ byteHex (byteAt bs 7) ++ [ '-' ] ++
      byteHex (byteAt bs 8 % 64 + 128) ++ byteHex (byteAt bs 9) ++ [ '-' ] ++
      byteHex (byteAt bs 10) ++ byteHex (byteAt bs 11) ++
      byteHex (byteAt bs 12) ++ byteHex (byteAt bs 13) ++
      byteHex (byteAt bs 14) ++ byteHex (byteAt bs 15))

/-- An ASCII lowercase hex digit. -/
def isLowerHexChar (c : Char) : Bool :=
  (48 ≤ c.toNat && c.toNat ≤ 57) || (97 ≤ c.toNat && c.toNat ≤ 102)

/-- Spec-side format check for generated ids: lowercase hex with
hyphens, 36 characters. -/
def uuidLike (s : String) : Bool :=
  s.length == 36 && s.toList.all (fun c => isLowerHexChar c || c == '-')

lemma alistGet_alistSet_self {κ α : Type} [DecidableEq κ] (k : κ) (v : α)
    (m : List (κ × α)) : alistGet k (alistSet k v m) = some v := by
  induction m with
  | nil => simp [alistSet, alistGet]
  | cons p rest ih =>
      by_cases h : p.1 = k
      · simp [alistSet, alistGet, h]
      · simp [alistSet, alistGet, h, ih]

lemma alistGet_alistSet_ne {κ α : Type} [DecidableEq κ] (k k2 : κ) (v : α)
    (m : List (κ × α)) (h : k2 ≠ k) :
    alistGet k2 (alistSet k v m) = alistGet k2 m := by
  induction m with
  | nil =>
      simp [alistSet, alistGet]
      intro h2
      exact absurd h2.symm h
  | cons p rest ih =>
      by_cases hp : p.1 = k
      · subst hp
        have : p.1 ≠ k2 := fun hx => h (hx.symm)
        simp [alistSet, alistGet, this]
      · simp only [alistSet, hp, if_false]
        by_cases hq : p.1 = k2
        · simp [alistGet, hq]
        · simp [alistGet, hq, ih]

lemma alistSet_eq_of_get {κ α : Type} [DecidableEq κ] (k : κ) (v : α)
    (m : List (κ × α)) (h : alistGet k m = some v) : alistSet k v m = m := by
  induction m with
  | nil => simp [alistGet] at h
  | cons p rest ih =>
      obtain ⟨a, b⟩ := p
      by_cases hp : a = k
      · simp only [alistGet, hp, if_true] at h
        cases h
        simp [alistSet, hp]
      · simp only [alistGet, hp, if_false] at h
        simp [alistSet, hp, ih h]

lemma alistGet_eq_none_of_not_mem {κ α : Type} [DecidableEq κ] (k : κ)
    (m : List (κ × α)) (h : k ∉ m.map Prod.fst) : alistGet k m = none := by
  induction m with
  | nil => rfl
  | cons p rest ih =>
      simp only [List.map_cons, List.mem_cons] at h
      push_neg at h
      have hne : ¬p.1 = k := fun hx => h.1 hx.symm
      obtain ⟨a, b⟩ := p
      simp [alistGet, hne, ih h.2]

lemma alistSet_append_of_get_none {κ α : Type} [DecidableEq κ] (k : κ)
    (v : α) (m : List (κ × α)) (h : alistGet k m = none) :
    alistSet k v m = m ++ [(k, v)] := by
  induction m with
  | nil => rfl
  | cons p rest ih =>
      by_cases hp : p.1 = k
      · simp [alistGet, hp] at h
      · simp only [alistGet, hp, if_false] at h
        simp [alistSet, hp, ih h]

lemma dictUpdate_get_of_none {κ α : Type} [DecidableEq κ] (k : κ)
    (d other : List (κ × α)) (h : alistGet k other = none) :
    alistGet k (dictUpdate d other) = alistGet k d := by
  induction other generalizing d with
  | nil => rfl
  | cons p rest ih =>
      by_cases hp : p.1 = k
      · simp [alistGet, hp] at h
      · simp only [alistGet, hp, if_false] at h
        show alistGet k (dictUpdate (alistSet p.1 p.2 d) rest) = alistGet k d
        rw [ih _ h, alistGet_alistSet_ne _ _ _ _ (fun hx => hp hx.symm)]

lemma dictUpdate_get_of_some {κ α : Type} [DecidableEq κ] (k : κ) (v : α)
    (d other : List (κ × α)) (hnodup : (other.map Prod.fst).Nodup)
    (h : alistGet k other = some v) :
    alistGet k (dictUpdate d other) = some v := by
  induction other generalizing d with
  | nil => simp [alistGet] at h
  | cons p rest ih =>
      simp only [List.map_cons, List.nodup_cons] at hnodup
      obtain ⟨a, b⟩ := p
      by_cases hp : a = k
      · simp only [alistGet, hp, if_true] at h
        subst hp
        rw [Option.some.injEq] at h
        subst h
        show alistGet a (dictUpdate (alistSet a b d) rest) = some b
        rw [dictUpdate_get_of_none _ _ _
            (alistGet_eq_none_of_not_mem _ _ hnodup.1),
          alistGet_alistSet_self]
      · simp only [alistGet, hp, if_false] at h
        show alistGet k (dictUpdate (alistSet a b d) rest) = some v
        exact ih _ hnodup.2 h

lemma dictOfPairs_eq_self {κ α : Type} [DecidableEq κ]
    (acc rest : List (κ × α)) (h : ((acc ++ rest).map Prod.fst).Nodup) :
    rest.foldl (fun a p => alistSet p.1 p.2 a) acc = acc ++ rest := by
  induction rest generalizing acc with
  | nil => simp
  | cons p tail ih =>
      have hmem : p.1 ∉ acc.map Prod.fst := by
        intro hx
        rw [List.map_append] at h
        rcases (List.nodup_append.mp h) with ⟨_, _, hdisj⟩
        exact hdisj hx (by simp)
      have hset : alistSet p.1 p.2 acc = acc ++ [(p.1, p.2)] :=
        alistSet_append_of_get_none _ _ _ (alistGet_eq_none_of_not_mem _ _ hmem)
      show (p :: tail).foldl (fun a q => alistSet q.1 q.2 a) acc = _
      rw [List.foldl_cons, hset]
      have hre : (acc ++ [(p.1, p.2)]) ++ tail = acc ++ p :: tail := by
        rw [List.append_assoc]
        rfl
      have h2 : (((acc ++ [(p.1, p.2)]) ++ tail).map Prod.fst).Nodup := by
        rw [hre]
        exact h
      rw [ih _ h2, hre]

lemma resolveRid_get_ne (idField k : String) (record : Record)
    (record_id : Option String) (h : k ≠ idField) :
    alistGet k (resolveRid idField record record_id).1 = alistGet k record := by
  cases record_id with
  | none =>
      cases hv : alistGet idField record <;> simp [resolveRid, hv]
  | some s =>
      by_cases hs : s = ""
      · cases hv : alistGet idField record <;> simp [resolveRid, hs, hv]
      · simp [resolveRid, hs, alistGet_alistSet_ne _ _ _ _ h]

lemma resolveRid_get_idField_of_truthy (idField : String) (record : Record)
    (record_id : Option String)
    (h : pyTruthy (resolveRid idField record record_id).2 = true) :
    alistGet idField (resolveRid idField record record_id).1
      = some (resolveRid idField record record_id).2 := by
  cases record_id with
  | none =>
      cases hv : alistGet idField record with
      | none => rw [resolveRid, hv] at h ⊢; simp [pyTruthy] at h
      | some v => rw [resolveRid, hv] at h ⊢; simpa using hv
  | some s =>
      by_cases hs : s = ""
      · cases hv : alistGet idField record with
        | none =>
            rw [resolveRid] at h ⊢
            simp only [hs, if_true, hv] at h
            simp [pyTruthy, hs] at h
        | some v =>
            rw [resolveRid] at h ⊢
            simp only [hs, if_true, hv]
      · simp [resolveRid, hs, alistGet_alistSet_self]

lemma resolveCreateId_get_idField (idField fresh : String) (record : Record)
    (record_id : Option String) :
    alistGet idField (resolveCreateId idField fresh record record_id).1
      = some ((resolveCreateId idField fresh record record_id).2) := by
  by_cases ht : pyTruthy (resolveRid idField record record_id).2 = true
  · simp only [resolveCreateId, ht, if_true]
    exact resolveRid_get_idField_of_truthy _ _ _ ht
  · rw [Bool.not_eq_true] at ht
    simp [resolveCreateId, ht, alistGet_alistSet_self]

lemma resolveCreateId_get_ne (idField fresh k : String) (record : Record)
    (record_id : Option String) (h : k ≠ idField) :
    alistGet k (resolveCreateId idField fresh record record_id).1
      = alistGet k record := by
  by_cases ht : pyTruthy (resolveRid idField record record_id).2 = true
  · simp only [resolveCreateId, ht, if_true]
    exact resolveRid_get_ne _ _ _ _ h
  · rw [Bool.not_eq_true] at ht
    simp only [resolveCreateId, ht, Bool.false_eq_true, if_false]
    rw [alistGet_alistSet_ne _ _ _ _ h]
    exact resolveRid_get_ne _ _ _ _ h

lemma isLowerHexChar_hexChar (n : Nat) :
    isLowerHexChar (hexChar (n % 16)) = true := by
  have h : n % 16 < 16 := Nat.mod_lt _ (by decide)
  generalize n % 16 = m at h
  interval_cases m <;> decide

lemma uuidLike_uuid4String (bs : List Nat) : uuidLike (uuid4String bs) = true := by
  simp [uuidLike, uuid4String, String.length, String.toList, byteHex,
    isLowerHexChar_hexChar, List.all_append]

/-- C3: `create` whose resolved id already exists in the target
resource fails with DuplicateValue, and the store state — the
resource-to-records map, the dirty flag and the change signal — is
exactly the state before the call. -/
theorem c3_create_duplicate_leaves_state_unchanged
    (db : DB) (idField fresh resource : String) (record : Record)
    (record_id : Option String) (m : ResMap)
    (hm : alistGet resource db.records = some m)
    (hdup : alistHas (resolveCreateId idField fresh record record_id).2 m
      = true) :
    DB.create db idField fresh resource record record_id
      = (Except.error DbError.duplicateValue, db) := by
  simp [DB.create, hm, hdup]

/-- Store with one record, for instantiating store theorems. -/
def db3w : DB :=
  { records := [("users", [(JValue.jstr "u1", [("id", JValue.jstr "u1")])])],
    dirty := false, dataChanged := false }

theorem c3_create_duplicate_witness :
    DB.create db3w "id" "ffff" "users" [("x", JValue.jnum 1)] (some "u1")
      = (Except.error DbError.duplicateValue, db3w) :=
  c3_create_duplicate_leaves_state_unchanged db3w "id" "ffff" "users"
    [("x", JValue.jnum 1)] (some "u1")
    [(JValue.jstr "u1", [("id", JValue.jstr "u1")])] (by rfl) (by rfl)

lemma create_success_eq
    (db : DB) (idField fresh resource : String) (record : Record)
    (record_id : Option String)
    (hfree : alistHas (resolveCreateId idField fresh record record_id).2
        ((alistGet resource db.records).getD []) = false) :
    DB.create db idField fresh resource record record_id
      = (Except.ok (resolveCreateId idField fresh record record_id).1,
         { records := alistSet resource
             (alistSet (resolveCreateId idField fresh record record_id).2
               (resolveCreateId idField fresh record record_id).1
               ((alistGet resource db.records).getD [])) db.records,
           dirty := true, dataChanged := true }) := by
  cases hm : alistGet resource db.records with
  | none => simp [DB.create, hm]
  | some m =>
      rw [hm, Option.getD_some] at hfree
      simp [DB.create, hm, hfree]

/-- C2 (amended): for every valid input whose resolved id is a string
not already present in the resource, `create` followed by `read` with
the resolved id yields exactly the input record plus the stamped id
field, and the id is resolved in this order — a truthy (non-empty)
explicit id argument overrides; else a truthy id field already present
in the record body is used; else a fresh UUID-v4-equivalent identifier
(lowercase hex with hyphens, 36 characters) is generated and written
into the record's id field.  A falsy explicit argument or a falsy body
id value is skipped by the resolution and falls through to uuid
generation. -/
theorem c2_create_then_read_roundtrip
    (idField resource : String) (record : Record) (record_id : Option String)
    (db : DB) (bs : List Nat) (i : String)
    (hres : (resolveCreateId idField (uuid4String bs) record record_id).2
      = JValue.jstr i)
    (hfree : alistHas (JValue.jstr i)
      ((alistGet resource db.records).getD []) = false) :
    uuidLike (uuid4String bs) = true
    ∧ (∀ s, record_id = some s → s ≠ "" →
        (resolveCreateId idField (uuid4String bs) record record_id).2
          = JValue.jstr s)
    ∧ ((record_id = none ∨ record_id = some "") →
        ∀ v, alistGet idField record = some v → pyTruthy v = true →
          (resolveCreateId idField (uuid4String bs) record record_id).2 = v)
    ∧ ((record_id = none ∨ record_id = some "") →
        (∀ v, alistGet idField record = some v → pyTruthy v = false →
          (resolveCreateId idField (uuid4String bs) record record_id).2
            = JValue.jstr (uuid4String bs))
        ∧ (alistGet idField record = none →
          (resolveCreateId idField (uuid4String bs) record record_id).2
            = JValue.jstr (uuid4String bs)))
    ∧ DB.create db idField (uuid4String bs) resource record record_id
        = (Except.ok
            (resolveCreateId idField (uuid4String bs) record record_id).1,
           { records := alistSet resource
               (alistSet (JValue.jstr i)
                 (resolveCreateId idField (uuid4String bs) record
                   record_id).1
                 ((alistGet resource db.records).getD [])) db.records,
             dirty := true, dataChanged := true })
    ∧ DB.read
        (DB.create db idField (uuid4String bs) resource record record_id).2
        resource i
        = Except.ok
            (resolveCreateId idField (uuid4String bs) record record_id).1
    ∧ alistGet idField
        (resolveCreateId idField (uuid4String bs) record record_id).1
        = some (JValue.jstr i)
    ∧ (∀ k, k ≠ idField →
        alistGet k
          (resolveCreateId idField (uuid4String bs) record record_id).1
          = alistGet k record) := by
  have hcr := create_success_eq db idField (uuid4String bs) resource record
    record_id (by rw [hres]; exact hfree)
  rw [hres] at hcr
  refine ⟨uuidLike_uuid4String bs, ?_, ?_, ?_, hcr, ?_, ?_, ?_⟩
  · intro s hrid hne
    subst hrid
    simp [resolveCreateId, resolveRid, hne, pyTruthy]
  · rintro (h | h) v hv htrue <;> subst h <;>
      simp [resolveCreateId, resolveRid, hv, htrue]
  · rintro (h | h) <;> subst h <;>
      exact ⟨fun v hv hfalse => by
          simp [resolveCreateId, resolveRid, hv, hfalse],
        fun hv => by simp [resolveCreateId, resolveRid, hv, pyTruthy]⟩
  · rw [hcr]
    simp [DB.read, alistGet_alistSet_self]
  · rw [← hres]
    exact resolveCreateId_get_idField _ _ _ _
  · intro k hk
    exact resolveCreateId_get_ne _ _ _ _ _ hk

theorem c2_create_then_read_witness :
    DB.read (DB.create emptyDB "id" (uuid4String []) "users"
        [("name", JValue.jstr "Alice")] none).2 "users"
        "00000000-0000-4000-8000-000000000000"
      = Except.ok [("name", JValue.jstr "Alice"),
          ("id", JValue.jstr "00000000-0000-4000-8000-000000000000")] := by
  have h := c2_create_then_read_roundtrip "id" "users"
    [("name", JValue.jstr "Alice")] none emptyDB []
    "00000000-0000-4000-8000-000000000000" (by rfl) (by rfl)
  exact h.2.2.2.2.2.1

/-- C2, counterexample to the claim as stated: with no explicit id
argument and the id field present in the body but holding the falsy
value `""`, `create` does not use the body id — it generates a fresh
uuid instead, so the stamped id differs from the body id that the
claim's resolution order prescribes. -/
theorem c2_falsy_body_id_counterexample :
    alistGet "id" ([("id", JValue.jstr "")] : Record) = some (JValue.jstr "")
    ∧ (DB.create emptyDB "id" (uuid4String []) "r"
        [("id", JValue.jstr "")] none).1
      = Except.ok
          [("id", JValue.jstr "00000000-0000-4000-8000-000000000000")]
    ∧ JValue.jstr "00000000-0000-4000-8000-000000000000"
        ≠ JValue.jstr "" := by
  refine ⟨rfl, rfl, by decide⟩

/-- C4: `update` on an existing record id is a true partial merge —
the call returns the full merged record and stores it back; every field
present in the supplied (id-stamped) record overwrites the stored
field, and every field not mentioned is preserved from the stored
record. -/
theorem c4_update_partial_merge
    (db : DB) (idField resource : String) (record : Record)
    (record_id : Option String) (m : ResMap) (stored : Record)
    (hm : alistGet resource db.records = some m)
    (hstored : alistGet (resolveRid idField record record_id).2 m
      = some stored)
    (hnodup : (((resolveRid idField record record_id).1).map Prod.fst).Nodup) :
    DB.update db idField resource record record_id
      = (Except.ok (dictUpdate stored (resolveRid idField record record_id).1),
         { records := alistSet resource
             (alistSet (resolveRid idField record record_id).2
               (dictUpdate stored (resolveRid idField record record_id).1) m)
             db.records,
           dirty := true, dataChanged := true })
    ∧ (∀ k v, alistGet k (resolveRid idField record record_id).1 = some v →
        alistGet k (dictUpdate stored (resolveRid idField record record_id).1)
          = some v)
    ∧ (∀ k, alistGet k (resolveRid idField record record_id).1 = none →
        alistGet k (dictUpdate stored (resolveRid idField record record_id).1)
          = alistGet k stored) := by
  refine ⟨?_, fun k v hk => dictUpdate_get_of_some _ _ _ _ hnodup hk,
    fun k hk => dictUpdate_get_of_none _ _ _ hk⟩
  have hset : alistSet resource m db.records = db.records :=
    alistSet_eq_of_get _ _ _ hm
  simp [DB.update, hm, hstored, hset]

/-- Store holding the spec's partial-merge example record. -/
def db4w : DB :=
  { records := [("items",
      [(JValue.jstr "1",
        [("id", JValue.jstr "1"), ("a", JValue.jnum 0),
          ("b", JValue.jnum 2)])])],
    dirty := false, dataChanged := false }

theorem c4_update_partial_merge_witness :
    (DB.update db4w "id" "items" [("a", JValue.jnum 1)] (some "1")).1
      = Except.ok [("id", JValue.jstr "1"), ("a", JValue.jnum 1),
          ("b", JValue.jnum 2)] := by
  have h := c4_update_partial_merge db4w "id" "items" [("a", JValue.jnum 1)]
    (some "1")
    [(JValue.jstr "1",
      [("id", JValue.jstr "1"), ("a", JValue.jnum 0), ("b", JValue.jnum 2)])]
    [("id", JValue.jstr "1"), ("a", JValue.jnum 0), ("b", JValue.jnum 2)]
    (by rfl) (by decide) (by decide)
  rw [h.1]
  rfl

/-- C5: `set` fails with MissingId exactly when the id resolution over
the explicit argument and the record body yields no truthy id (there is
no generation fallback); with a resolved id it replaces-or-inserts the
record at that id unconditionally — no pre-existence check appears as a
hypothesis, and the resolved id maps to the new record afterwards — and
it marks the store dirty and signals the scheduler. -/
theorem c5_set_upsert_or_missing_id
    (db : DB) (idField resource : String) (record : Record)
    (record_id : Option String) :
    (pyTruthy (resolveRid idField record record_id).2 = false →
      DB.set db idField resource record record_id
        = (Except.error DbError.missingId, db))
    ∧ (pyTruthy (resolveRid idField record record_id).2 = true →
      DB.set db idField resource record record_id
        = (Except.ok (resolveRid idField record record_id).1,
           { records := alistSet resource
               (alistSet (resolveRid idField record record_id).2
                 (resolveRid idField record record_id).1
                 ((alistGet resource db.records).getD [])) db.records,
             dirty := true, dataChanged := true })
      ∧ alistGet (resolveRid idField record record_id).2
          (alistSet (resolveRid idField record record_id).2
            (resolveRid idField record record_id).1
            ((alistGet resource db.records).getD []))
          = some (resolveRid idField record record_id).1) := by
  constructor
  · intro h
    simp [DB.set, h]
  · intro h
    exact ⟨by simp [DB.set, h], alistGet_alistSet_self _ _ _⟩

theorem c5_set_witness :
    DB.set emptyDB "id" "users" [("a", JValue.jnum 0)] none
      = (Except.error DbError.missingId, emptyDB)
    ∧ DB.set emptyDB "id" "users" [("a", JValue.jnum 0)] (some "x")
      = (Except.ok [("a", JValue.jnum 0), ("id", JValue.jstr "x")],
         { records := [("users",
             [(JValue.jstr "x",
               [("a", JValue.jnum 0), ("id", JValue.jstr "x")])])],
           dirty := true, dataChanged := true }) :=
  ⟨(c5_set_upsert_or_missing_id emptyDB "id" "users" [("a", JValue.jnum 0)]
      none).1 (by rfl),
    ((c5_set_upsert_or_missing_id emptyDB "id" "users" [("a", JValue.jnum 0)]
      (some "x")).2 (by rfl)).1⟩

/-- C10: `update` with no explicit id argument and no id field in the
record body fails with NotFound — the unresolved id (Python `None`) is
absent from the resource's map — and not with MissingId. -/
theorem c10_update_unresolved_id_raises_notFound
    (db : DB) (idField resource : String) (record : Record)
    (hbody : alistGet idField record = none)
    (hnull : alistGet JValue.jnull ((alistGet resource db.records).getD [])
      = none) :
    (DB.update db idField resource record none).1
      = Except.error DbError.notFound := by
  have hr : resolveRid idField record none = (record, JValue.jnull) := by
    simp [resolveRid, hbody]
  simp [DB.update, hr, hnull]

theorem c10_update_unresolved_id_witness :
    (DB.update emptyDB "id" "ghosts" [("a", JValue.jnum 5)] none).1
      = Except.error DbError.notFound :=
  c10_update_unresolved_id_raises_notFound emptyDB "id" "ghosts"
    [("a", JValue.jnum 5)] (by rfl) (by rfl)

lemma recordKeyPairs_of_keyed (idField : String) (m : ResMap)
    (hids : ∀ p ∈ m, alistGet idField p.2 = some p.1) :
    recordKeyPairs idField (m.map Prod.snd) = some m := by
  induction m with
  | nil => rfl
  | cons p rest ih =>
      have hp := hids p (List.mem_cons_self p rest)
      have hrest := fun q hq => hids q (List.mem_cons_of_mem p hq)
      obtain ⟨k, r⟩ := p
      simp only [List.map_cons]
      simp [recordKeyPairs, hp, ih hrest]

lemma dictOfPairs_id_of_nodup {κ α : Type} [DecidableEq κ]
    (m : List (κ × α)) (hnodup : (m.map Prod.fst).Nodup) :
    dictOfPairs m = m := by
  have h := dictOfPairs_eq_self [] m (by simpa using hnodup)
  simpa [dictOfPairs] using h

lemma loadSnapshot_roundtrip (idField : String) (rs : Resources)
    (hids : ∀ p ∈ rs, ∀ q ∈ p.2, alistGet idField q.2 = some q.1)
    (hnodup : ∀ p ∈ rs, (p.2.map Prod.fst).Nodup) :
    loadSnapshot idField (rs.map (fun p => (p.1, p.2.map Prod.snd)))
      = some rs := by
  induction rs with
  | nil => rfl
  | cons p rest ih =>
      have hp := hids p (List.mem_cons_self p rest)
      have hn := hnodup p (List.mem_cons_self p rest)
      have hrest1 := fun q hq => hids q (List.mem_cons_of_mem p hq)
      have hrest2 := fun q hq => hnodup q (List.mem_cons_of_mem p hq)
      obtain ⟨res, m⟩ := p
      simp only [List.map_cons]
      simp [loadSnapshot, recordKeyPairs_of_keyed idField m hp,
        ih hrest1 hrest2, dictOfPairs_id_of_nodup m hn]

/-- C7: for every store state in which each resource's keys are
distinct and each record carries its own storage id in the id field,
persisting the snapshot and loading it into a fresh store instance
reproduces the records map exactly — all resources, ids and fields
preserved. -/
theorem c7_persist_then_load_roundtrip
    (idField : String) (db : DB)
    (hids : ∀ p ∈ db.records, ∀ q ∈ p.2, alistGet idField q.2 = some q.1)
    (hnodup : ∀ p ∈ db.records, (p.2.map Prod.fst).Nodup) :
    (DB.load idField (persistSnapshot db)).records = db.records := by
  have h := loadSnapshot_roundtrip idField db.records hids hnodup
  simp [DB.load, persistSnapshot, h]

theorem c7_persist_load_witness :
    (DB.load "id" (persistSnapshot db3w)).records = db3w.records :=
  c7_persist_then_load_roundtrip "id" db3w (by decide) (by decide)

/-- C8 (amended): `available_resources` returns, without any error
case, the sorted duplicate-free list of exactly the resource names
currently present as keys of the records map.  These are the resources
holding at least one record plus any empty resource vivified by a
`defaultdict` lookup, such as a failed `update` on a previously unknown
resource name. -/
theorem c8_available_resources_sorted_keys (db : DB) :
    (∀ r, r ∈ db.available_resources ↔ r ∈ db.records.map Prod.fst)
    ∧ List.Sorted (fun a b => a ≤ b) db.available_resources
    ∧ db.available_resources.Nodup := by
  refine ⟨fun r => ?_, ?_, ?_⟩
  · exact ((List.perm_insertionSort _ _).mem_iff).trans List.mem_dedup
  · exact List.sorted_insertionSort _ _
  · exact (List.perm_insertionSort _ _).nodup_iff.mpr (List.nodup_dedup _)

/-- C8, counterexample to the claim as stated: a failed `update`
naming a previously unknown resource vivifies it as an empty map
through `defaultdict`, after which `available_resources` lists a
resource holding zero records. -/
theorem c8_empty_resource_leak_counterexample :
    (DB.update emptyDB "id" "ghosts" [] none).1 = Except.error DbError.notFound
    ∧ DB.available_resources (DB.update emptyDB "id" "ghosts" [] none).2
        = ["ghosts"]
    ∧ alistGet "ghosts" ((DB.update emptyDB "id" "ghosts" [] none).2).records
        = some [] :=
  ⟨rfl, rfl, rfl⟩

/-- The atomic actions of the mutating `JsonDatabase` operations on
one resource, in source order.  `checkDup` is `create`'s duplicate-id
check, `checkExists` the NotFound existence check of `update` and
`delete`; all run as plain code before the `with self.data_lock`
statement.  `acquire`/`release` delimit the `with` block;
`writeRec`/`mergeRec`/`eraseRec` are the guarded map mutations
(together with the dirty flag and change signal) of
`create`/`set`, `update`, and `delete` respectively. -/
inductive CAction where
  | checkDup : CAction
  | checkExists : CAction
  | acquire : CAction
  | writeRec : Record → CAction
  | mergeRec : Record → CAction
  | eraseRec : CAction
  | release : CAction
  deriving DecidableEq, Repr

/-- The action list of one `create` call inserting `rec`, as laid out
in the source: the duplicate check precedes the lock acquisition. -/
def createSteps (rec : Record) : List CAction :=
  [CAction.checkDup, CAction.acquire, CAction.writeRec rec, CAction.release]

/-- A mutating operation a caller may run: `create`, `set` or `update`
carrying the supplied record, or `delete`. -/
inductive OpProg where
  | createP : Record → OpProg
  | setP : Record → OpProg
  | updateP : Record → OpProg
  | deleteP : OpProg
  deriving DecidableEq, Repr

/-- The action list of each mutating operation, in source order:
`create` checks for a duplicate before locking (database.py:174 before
177); `set` has no existence check at all (MissingId is decided on the
arguments before any store access); `update` and `delete` check
existence before locking (database.py:211 before 215, 224-229 before
230 — in this single-resource model `delete`'s resource and id guards
collapse to the one id-existence check). -/
def progSteps : OpProg → List CAction
  | OpProg.createP r => createSteps r
  | OpProg.setP r => [CAction.acquire, CAction.writeRec r, CAction.release]
  | OpProg.updateP r =>
      [CAction.checkExists, CAction.acquire, CAction.mergeRec r,
        CAction.release]
  | OpProg.deleteP =>
      [CAction.checkExists, CAction.acquire, CAction.eraseRec,
        CAction.release]

/-- The locked mutation action of each operation. -/
def mutOf : OpProg → CAction
  | OpProg.createP r => CAction.writeRec r
  | OpProg.setP r => CAction.writeRec r
  | OpProg.updateP r => CAction.mergeRec r
  | OpProg.deleteP => CAction.eraseRec

/-- An existence/duplicate check action. -/
def isCheckA : CAction → Bool
  | CAction.checkDup => true
  | CAction.checkExists => true
  | _ => false

/-- A store-mutating action. -/
def isMutA : CAction → Bool
  | CAction.writeRec _ => true
  | CAction.mergeRec _ => true
  | CAction.eraseRec => true
  | _ => false

/-- A two-thread configuration: the remaining actions of each caller,
the current owner of `data_lock` (`false`/`true` name the threads), the
contended resource map, whether each caller has raised, and whether
some store mutation ever executed without holding the lock. -/
structure CConfig where
  rem1 : List CAction
  rem2 : List CAction
  lockOwner : Option Bool
  store : ResMap
  raised1 : Bool
  raised2 : Bool
  badWrite : Bool
  deriving DecidableEq, Repr

/-- One atomic step of thread `tid` contending on record id `kid`:
`checkDup` raises and aborts the thread when the id is present,
`checkExists` when it is absent; an acquisition blocks (no-op) while
the lock is held; every store mutation records in `badWrite` whether
the mutator held the lock. -/
def stepThread (kid : JValue) (tid : Bool) (c : CConfig) : CConfig :=
  match (if tid then c.rem2 else c.rem1) with
  | [] => c
  | CAction.checkDup :: rest =>
      if alistHas kid c.store then
        if tid then { c with rem2 := [], raised2 := true }
        else { c with rem1 := [], raised1 := true }
      else
        if tid then { c with rem2 := rest }
        else { c with rem1 := rest }
  | CAction.checkExists :: rest =>
      if alistHas kid c.store then
        if tid then { c with rem2 := rest }
        else { c with rem1 := rest }
      else
        if tid then { c with rem2 := [], raised2 := true }
        else { c with rem1 := [], raised1 := true }
  | CAction.acquire :: rest =>
      match c.lockOwner with
      | none =>
          if tid then
            { c with
                rem2 := rest
                lockOwner := some tid }
          else
            { c with
                rem1 := rest
                lockOwner := some tid }
      | some _ => c
  | CAction.writeRec r :: rest =>
      if tid then
        { c with
            rem2 := rest
            store := alistSet kid r c.store
            badWrite := c.badWrite ||
              (if c.lockOwner = some tid then false else true) }
      else
        { c with
            rem1 := rest
            store := alistSet kid r c.store
            badWrite := c.badWrite ||
              (if c.lockOwner = some tid then false else true) }
  | CAction.mergeRec r :: rest =>
      if tid then
        { c with
            rem2 := rest
            store :=
              match alistGet kid c.store with
              | some st0 => alistSet kid (dictUpdate st0 r) c.store
              | none => c.store
            badWrite := c.badWrite ||
              (if c.lockOwner = some tid then false else true) }
      else
        { c with
            rem1 := rest
            store :=
              match alistGet kid c.store with
              | some st0 => alistSet kid (dictUpdate st0 r) c.store
              | none => c.store
            badWrite := c.badWrite ||
              (if c.lockOwner = some tid then false else true) }
  | CAction.eraseRec :: rest =>
      if tid then
        { c with
            rem2 := rest
            store := alistErase kid c.store
            badWrite := c.badWrite ||
              (if c.lockOwner = some tid then false else true) }
      else
        { c with
            rem1 := rest
            store := alistErase kid c.store
            badWrite := c.badWrite ||
              (if c.lockOwner = some tid then false else true) }
  | CAction.release :: rest =>
      if tid then
        { c with
            rem2 := rest
            lockOwner := none }
      else
        { c with
            rem1 := rest
            lockOwner := none }

/-- Run a schedule (a list of thread choices) from a configuration. -/
def runSched (kid : JValue) (sched : List Bool) (c : CConfig) : CConfig :=
  sched.foldl (fun acc t => stepThread kid t acc) c

/-- Both callers about to run `create` for the same resource and id on
an initially empty resource. -/
def initConfig (r1 r2 : Record) : CConfig :=
  { rem1 := createSteps r1, rem2 := createSteps r2, lockOwner := none,
    store := [], raised1 := false, raised2 := false, badWrite := false }

/-- Two arbitrary mutating operations about to run for the same
resource and id on an empty resource. -/
def initOps (p1 p2 : OpProg) : CConfig :=
  { rem1 := progSteps p1, rem2 := progSteps p2, lockOwner := none,
    store := [], raised1 := false, raised2 := false, badWrite := false }

/-- The remaining-action lists a caller of operation `p` can exhibit. -/
def Shapes (p : OpProg) (rem : List CAction) : Prop :=
  rem = progSteps p ∨
  rem = [CAction.acquire, mutOf p, CAction.release] ∨
  rem = [mutOf p, CAction.release] ∨ rem = [CAction.release] ∨ rem = []

/-- The caller is inside the `with self.data_lock` block. -/
def Region (p : OpProg) (rem : List CAction) : Prop :=
  rem = [mutOf p, CAction.release] ∨ rem = [CAction.release]

/-- Induction invariant: each thread's residue is a genuine suffix of
its operation's program, no store mutation has happened without the
lock, and the lock is owned by a thread exactly while that thread is
inside the `with` block. -/
def LockInv (p1 p2 : OpProg) (c : CConfig) : Prop :=
  Shapes p1 c.rem1 ∧ Shapes p2 c.rem2 ∧ c.badWrite = false ∧
  (c.lockOwner = some false ↔ Region p1 c.rem1) ∧
  (c.lockOwner = some true ↔ Region p2 c.rem2)

lemma region_not_full (p : OpProg) : ¬Region p (progSteps p) := by
  cases p <;> simp [Region, progSteps, createSteps, mutOf]

lemma lockInv_init (p1 p2 : OpProg) : LockInv p1 p2 (initOps p1 p2) :=
  ⟨Or.inl rfl, Or.inl rfl, rfl,
    iff_of_false (by simp [initOps]) (region_not_full p1),
    iff_of_false (by simp [initOps]) (region_not_full p2)⟩

lemma lockInv_step (kid : JValue) (p1 p2 : OpProg) (t : Bool) (c : CConfig)
    (h : LockInv p1 p2 c) : LockInv p1 p2 (stepThread kid t c) := by
  obtain ⟨g1, g2, lo, st, ra1, ra2, bw⟩ := c
  unfold LockInv at h ⊢
  obtain ⟨h1, h2, hb, ho1, ho2⟩ := h
  simp only at h1 h2 hb ho1 ho2
  cases t with
  | false =>
      rcases h1 with hs | hs | hs | hs | hs <;> subst hs
      · have hlo : lo ≠ some false := fun hx => region_not_full p1 (ho1.mp hx)
        cases p1 with
        | createP r =>
            by_cases hst : alistHas kid st = true
            · simp only [stepThread, progSteps, createSteps,
                Bool.false_eq_true, if_false, hst, if_true]
              exact ⟨Or.inr (Or.inr (Or.inr (Or.inr rfl))), h2, hb,
                iff_of_false hlo (by simp [Region]), ho2⟩
            · rw [Bool.not_eq_true] at hst
              simp only [stepThread, progSteps, createSteps,
                Bool.false_eq_true, if_false, hst]
              exact ⟨Or.inr (Or.inl rfl), h2, hb,
                iff_of_false hlo (by simp [Region, mutOf]), ho2⟩
        | setP r =>
            cases lo with
            | none =>
                have h2nr : ¬Region p2 g2 := fun hr => by
                  have hx := ho2.mpr hr
                  simp at hx
                simp only [stepThread, progSteps, Bool.false_eq_true,
                  if_false]
                exact ⟨Or.inr (Or.inr (Or.inl rfl)), h2, hb,
                  iff_of_true (by trivial) (Or.inl rfl),
                  iff_of_false (by simp) h2nr⟩
            | some b =>
                simp only [stepThread, progSteps, Bool.false_eq_true,
                  if_false]
                exact ⟨Or.inl rfl, h2, hb, ho1, ho2⟩
        | updateP r =>
            by_cases hst : alistHas kid st = true
            · simp only [stepThread, progSteps, Bool.false_eq_true,
                if_false, hst, if_true]
              exact ⟨Or.inr (Or.inl rfl), h2, hb,
                iff_of_false hlo (by simp [Region, mutOf]), ho2⟩
            · rw [Bool.not_eq_true] at hst
              simp only [stepThread, progSteps, Bool.false_eq_true,
                if_false, hst]
              exact ⟨Or.inr (Or.inr (Or.inr (Or.inr rfl))), h2, hb,
                iff_of_false hlo (by simp [Region]), ho2⟩
        | deleteP =>
            by_cases hst : alistHas kid st = true
            · simp only [stepThread, progSteps, Bool.false_eq_true,
                if_false, hst, if_true]
              exact ⟨Or.inr (Or.inl rfl), h2, hb,
                iff_of_false hlo (by simp [Region, mutOf]), ho2⟩
            · rw [Bool.not_eq_true] at hst
              simp only [stepThread, progSteps, Bool.false_eq_true,
                if_false, hst]
              exact ⟨Or.inr (Or.inr (Or.inr (Or.inr rfl))), h2, hb,
                iff_of_false hlo (by simp [Region]), ho2⟩
      · have hnr : ¬Region p1 [CAction.acquire, mutOf p1, CAction.release] :=
          by simp [Region]
        have hlo : lo ≠ some false := fun hx => hnr (ho1.mp hx)
        cases lo with
        | none =>
            have h2nr : ¬Region p2 g2 := fun hr => by
              have hx := ho2.mpr hr
              simp at hx
            simp only [stepThread, Bool.false_eq_true, if_false]
            exact ⟨Or.inr (Or.inr (Or.inl rfl)), h2, hb,
              iff_of_true (by trivial) (Or.inl rfl),
              iff_of_false (by simp) h2nr⟩
        | some b =>
            simp only [stepThread, Bool.false_eq_true, if_false]
            exact ⟨Or.inr (Or.inl rfl), h2, hb, ho1, ho2⟩
      · have hlo : lo = some false := ho1.mpr (Or.inl rfl)
        subst hlo
        cases p1 with
        | createP r =>
            simp only [stepThread, mutOf, Bool.false_eq_true, if_false]
            refine ⟨Or.inr (Or.inr (Or.inr (Or.inl rfl))), h2, ?_,
              iff_of_true (by trivial) (Or.inr rfl), ho2⟩
            simp [hb]
        | setP r =>
            simp only [stepThread, mutOf, Bool.false_eq_true, if_false]
            refine ⟨Or.inr (Or.inr (Or.inr (Or.inl rfl))), h2, ?_,
              iff_of_true (by trivial) (Or.inr rfl), ho2⟩
            simp [hb]
        | updateP r =>
            simp only [stepThread, mutOf, Bool.false_eq_true, if_false]
            refine ⟨Or.inr (Or.inr (Or.inr (Or.inl rfl))), h2, ?_,
              iff_of_true (by trivial) (Or.inr rfl), ho2⟩
            simp [hb]
        | deleteP =>
            simp only [stepThread, mutOf, Bool.false_eq_true, if_false]
            refine ⟨Or.inr (Or.inr (Or.inr (Or.inl rfl))), h2, ?_,
              iff_of_true (by trivial) (Or.inr rfl), ho2⟩
            simp [hb]
      · have hlo : lo = some false := ho1.mpr (Or.inr rfl)
        subst hlo
        have h2nr : ¬Region p2 g2 := fun hr => by
          have hx := ho2.mpr hr
          simp at hx
        simp only [stepThread, Bool.false_eq_true, if_false]
        exact ⟨Or.inr (Or.inr (Or.inr (Or.inr rfl))), h2, hb,
          iff_of_false (by simp) (by simp [Region]),
          iff_of_false (by simp) h2nr⟩
      · simp only [stepThread, Bool.false_eq_true, if_false]
        exact ⟨Or.inr (Or.inr (Or.inr (Or.inr rfl))), h2, hb, ho1, ho2⟩
  | true =>
      rcases h2 with hs | hs | hs | hs | hs <;> subst hs
      · have hlo : lo ≠ some true := fun hx => region_not_full p2 (ho2.mp hx)
        cases p2 with
        | createP r =>
            by_cases hst : alistHas kid st = true
            · simp only [stepThread, progSteps, createSteps, if_true, hst]
              exact ⟨h1, Or.inr (Or.inr (Or.inr (Or.inr rfl))), hb, ho1,
                iff_of_false hlo (by simp [Region])⟩
            · rw [Bool.not_eq_true] at hst
              simp only [stepThread, progSteps, createSteps, if_true, hst,
                Bool.false_eq_true, if_false]
              exact ⟨h1, Or.inr (Or.inl rfl), hb, ho1,
                iff_of_false hlo (by simp [Region, mutOf])⟩
        | setP r =>
            cases lo with
            | none =>
                have h1nr : ¬Region p1 g1 := fun hr => by
                  have hx := ho1.mpr hr
                  simp at hx
                simp only [stepThread, progSteps, if_true]
                exact ⟨h1, Or.inr (Or.inr (Or.inl rfl)), hb,
                  iff_of_false (by simp) h1nr,
                  iff_of_true (by trivial) (Or.inl rfl)⟩
            | some b =>
                simp only [stepThread, progSteps, if_true]
                exact ⟨h1, Or.inl rfl, hb, ho1, ho2⟩
        | updateP r =>
            by_cases hst : alistHas kid st = true
            · simp only [stepThread, progSteps, if_true, hst]
              exact ⟨h1, Or.inr (Or.inl rfl), hb, ho1,
                iff_of_false hlo (by simp [Region, mutOf])⟩
            · rw [Bool.not_eq_true] at hst
              simp only [stepThread, progSteps, if_true, hst,
                Bool.false_eq_true, if_false]
              exact ⟨h1, Or.inr (Or.inr (Or.inr (Or.inr rfl))), hb, ho1,
                iff_of_false hlo (by simp [Region])⟩
        | deleteP =>
            by_cases hst : alistHas kid st = true
            · simp only [stepThread, progSteps, if_true, hst]
              exact ⟨h1, Or.inr (Or.inl rfl), hb, ho1,
                iff_of_false hlo (by simp [Region, mutOf])⟩
            · rw [Bool.not_eq_true] at hst
              simp only [stepThread, progSteps, if_true, hst,
                Bool.false_eq_true, if_false]
              exact ⟨h1, Or.inr (Or.inr (Or.inr (Or.inr rfl))), hb, ho1,
                iff_of_false hlo (by simp [Region])⟩
      · have hnr : ¬Region p2 [CAction.acquire, mutOf p2, CAction.release] :=
          by simp [Region]
        have hlo : lo ≠ some true := fun hx => hnr (ho2.mp hx)
        cases lo with
        | none =>
            have h1nr : ¬Region p1 g1 := fun hr => by
              have hx := ho1.mpr hr
              simp at hx
            simp only [stepThread, if_true]
            exact ⟨h1, Or.inr (Or.inr (Or.inl rfl)), hb,
              iff_of_false (by simp) h1nr,
              iff_of_true (by trivial) (Or.inl rfl)⟩
        | some b =>
            simp only [stepThread, if_true]
            exact ⟨h1, Or.inr (Or.inl rfl), hb, ho1, ho2⟩
      · have hlo : lo = some true := ho2.mpr (Or.inl rfl)
        subst hlo
        cases p2 with
        | createP r =>
            simp only [stepThread, mutOf, if_true]
            refine ⟨h1, Or.inr (Or.inr (Or.inr (Or.inl rfl))), ?_, ho1,
              iff_of_true (by trivial) (Or.inr rfl)⟩
            simp [hb]
        | setP r =>
            simp only [stepThread, mutOf, if_true]
            refine ⟨h1, Or.inr (Or.inr (Or.inr (Or.inl rfl))), ?_, ho1,
              iff_of_true (by trivial) (Or.inr rfl)⟩
            simp [hb]
        | updateP r =>
            simp only [stepThread, mutOf, if_true]
            refine ⟨h1, Or.inr (Or.inr (Or.inr (Or.inl rfl))), ?_, ho1,
              iff_of_true (by trivial) (Or.inr rfl)⟩
            simp [hb]
        | deleteP =>
            simp only [stepThread, mutOf, if_true]
            refine ⟨h1, Or.inr (Or.inr (Or.inr (Or.inl rfl))), ?_, ho1,
              iff_of_true (by trivial) (Or.inr rfl)⟩
            simp [hb]
      · have hlo : lo = some true := ho2.mpr (Or.inr rfl)
        subst hlo
        have h1nr : ¬Region p1 g1 := fun hr => by
          have hx := ho1.mpr hr
          simp at hx
        simp only [stepThread, if_true]
        exact ⟨h1, Or.inr (Or.inr (Or.inr (Or.inr rfl))), hb,
          iff_of_false (by simp) h1nr,
          iff_of_false (by simp) (by simp [Region])⟩
      · simp only [stepThread, if_true]
        exact ⟨h1, Or.inr (Or.inr (Or.inr (Or.inr rfl))), hb, ho1, ho2⟩

lemma lockInv_run (kid : JValue) (p1 p2 : OpProg) :
    ∀ (sched : List Bool) (c : CConfig), LockInv p1 p2 c →
      LockInv p1 p2 (runSched kid sched c) := by
  intro sched
  induction sched with
  | nil => intro c h; exact h
  | cons t rest ih =>
      intro c h
      exact ih _ (lockInv_step kid p1 p2 t c h)

/-- C9 (amended): for every pair of concurrent mutating operations
(`create`, `set`, `update` or `delete`) contending on one resource and
id, and every interleaving, the store mutation (map write/merge/erase
together with the dirty flag and change signal) only ever executes
while its caller holds the single store-wide lock — writes are
serialized; and each operation's program consists of its
existence/duplicate checks, all placed before the lock acquisition,
followed by exactly the one locked mutation. -/
theorem c9_all_mutators_write_under_lock
    (kid : JValue) (p1 p2 : OpProg) (sched : List Bool) :
    (runSched kid sched (initOps p1 p2)).badWrite = false
    ∧ ∀ p : OpProg, ∃ checks mact,
        progSteps p = checks ++ [CAction.acquire, mact, CAction.release]
        ∧ (∀ a ∈ checks, isCheckA a = true) ∧ isMutA mact = true := by
  refine ⟨(lockInv_run kid p1 p2 sched _ (lockInv_init p1 p2)).2.2.1, ?_⟩
  intro p
  cases p with
  | createP r =>
      exact ⟨[CAction.checkDup], CAction.writeRec r, rfl, by decide, rfl⟩
  | setP r =>
      exact ⟨[], CAction.writeRec r, rfl, by decide, rfl⟩
  | updateP r =>
      exact ⟨[CAction.checkExists], CAction.mergeRec r, rfl, by decide, rfl⟩
  | deleteP =>
      exact ⟨[CAction.checkExists], CAction.eraseRec, rfl, by decide, rfl⟩

/-- C9, counterexample to the claim as stated: a legal interleaving of
two `create` callers for the same record id in which both duplicate
checks run before either write (both pass on the empty resource), then
both callers acquire the lock in turn and write.  Both calls complete
without DuplicateValue and the second write silently overwrites the
first — impossible if the check-and-write sequence were executed under
the lock as one critical section. -/
theorem c9_check_write_interleaving_counterexample :
    (runSched (JValue.jstr "x")
        [false, true, false, false, false, true, true, true]
        (initConfig [("n", JValue.jnum 1)] [("n", JValue.jnum 2)])).raised1
      = false
    ∧ (runSched (JValue.jstr "x")
        [false, true, false, false, false, true, true, true]
        (initConfig [("n", JValue.jnum 1)] [("n", JValue.jnum 2)])).raised2
      = false
    ∧ (runSched (JValue.jstr "x")
        [false, true, false, false, false, true, true, true]
        (initConfig [("n", JValue.jnum 1)] [("n", JValue.jnum 2)])).rem1
      = []
    ∧ (runSched (JValue.jstr "x")
        [false, true, false, false, false, true, true, true]
        (initConfig [("n", JValue.jnum 1)] [("n", JValue.jnum 2)])).rem2
      = []
    ∧ (runSched (JValue.jstr "x")
        [false, true, false, false, false, true, true, true]
        (initConfig [("n", JValue.jnum 1)] [("n", JValue.jnum 2)])).store
      = [(JValue.jstr "x", [("n", JValue.jnum 2)])] := by
  refine ⟨?_, ?_, ?_, ?_, ?_⟩ <;> decide

theorem c1_filter_witness :
    SpecMatch "name" "A*" [("name", JValue.jstr "Alice")] :=
  (c1_build_query_filter_matches_spec "name" "A*"
    [("name", JValue.jstr "Alice")]).mp (by decide)

theorem c8_available_resources_witness :
    "ghosts" ∈ DB.available_resources (DB.update emptyDB "id" "ghosts" []
        none).2
      ↔ "ghosts" ∈ ((DB.update emptyDB "id" "ghosts" [] none).2).records.map
          Prod.fst :=
  (c8_available_resources_sorted_keys (DB.update emptyDB "id" "ghosts" []
    none).2).1 "ghosts"

theorem c9_all_mutators_witness :
    (runSched (JValue.jstr "x")
      [false, false, true, false, false, true, true, true]
      (initOps (OpProg.updateP [("a", JValue.jnum 1)])
        OpProg.deleteP)).badWrite = false :=
  (c9_all_mutators_write_under_lock (JValue.jstr "x")
    (OpProg.updateP [("a", JValue.jnum 1)]) OpProg.deleteP
    [false, false, true, false, false, true, true, true]).1
